import Mathlib

/-!
Shallow embedding of the eqvnc viewer (src/eqvnc.cpp): the distributed
frame-state model with its delta serialization (`eq_frame_data`), the
remote-desktop callbacks (`vnc_resize`, `vnc_update`) and the session loop's
event handling, the canvas-fit computation of `eq_config::startFrame`, the
pointer and key event mappers, and the wall / cylinder draw geometry of
`eq_channel::frameDraw`.

Machine integers (`int`, `size_t`, `unsigned int`) are modelled as `Int`/`Nat`;
the program never exercises integer overflow on the quantities the claims talk
about.  C++ `float` values that are only copied verbatim (the `canvas[6]`
array on the wire) are modelled as opaque bit patterns (`Nat`); `float`
arithmetic in the geometry code is modelled exactly over `ℚ`, with the
transcendental functions (`tan`, `cos`, `sin`, `acos`, `sqrt`) and `M_PI`
taken as parameters.
-/

/-- The `rectangle_t` struct: `int x, y, w, h`. -/
structure rectangle_t where
  x : Int
  y : Int
  w : Int
  h : Int
deriving DecidableEq, Repr

/-- One item of the `co::DataOStream`/`co::DataIStream` wire stream, one
constructor per C++ type inserted by `eq_frame_data::getInstanceData`:
`int` fields, the fixed-size `float` canvas array (carried as opaque bit
patterns, since the code only copies it), the `size_t` rectangle count and the
`unsigned int` pixels. -/
inductive Wire where
  | wInt : Int → Wire
  | wFloats : List Nat → Wire
  | wSize : Nat → Wire
  | wPix : Nat → Wire
deriving DecidableEq, Repr

/-- The distributed frame state `eq_frame_data`: desktop dimensions, the
canvas-fit data `canvas[6]`, the 32-bit pixel buffer (row-major,
`vnc_framebuffer[y * vnc_width + x]`), and the dirty rectangle list. -/
structure eq_frame_data where
  vnc_width : Int
  vnc_height : Int
  canvas : List Nat
  vnc_framebuffer : List Nat
  vnc_dirty_rectangles : List rectangle_t
deriving DecidableEq, Repr

/-- Flat row-major index `y * vnc_width + x` used by both serialization
loops.  The program's index is an `int` that is in range in every defined
execution; out-of-range accesses are undefined behaviour in the C++ and are
not exercised by any theorem below. -/
def flatIdx (w : Int) (p : Int × Int) : Nat :=
  (p.2 * w + p.1).toNat

/-- The pixel positions of a rectangle in the order the nested loops
`for (y = r.y; y < r.y + r.h; y++) for (x = r.x; x < r.x + r.w; x++)`
visit them (row-major, `y` outer). -/
def rectPoints (r : rectangle_t) : List (Int × Int) :=
  ((List.range r.h.toNat).map (fun (j : Nat) =>
    (List.range r.w.toNat).map (fun (i : Nat) =>
      (r.x + (i : Int), r.y + (j : Int))))).flatten

/-- A pixel position lies inside a rectangle (the region the nested
serialization loops cover). -/
def coversPt (r : rectangle_t) (p : Int × Int) : Prop :=
  r.x ≤ p.1 ∧ p.1 < r.x + r.w ∧ r.y ≤ p.2 ∧ p.2 < r.y + r.h

instance (r : rectangle_t) (p : Int × Int) : Decidable (coversPt r p) := by
  unfold coversPt; exact inferInstance

/-- A rectangle lies within desktop dimensions `w × h`:
`0<=x, 0<=y, x+w<=desktopWidth, y+h<=desktopHeight`. -/
def rectInBounds (w h : Int) (r : rectangle_t) : Prop :=
  0 ≤ r.x ∧ 0 ≤ r.y ∧ r.x + r.w ≤ w ∧ r.y + r.h ≤ h

instance (w h : Int) (r : rectangle_t) : Decidable (rectInBounds w h r) := by
  unfold rectInBounds; exact inferInstance

/-- The authoritative buffer value `vnc_framebuffer[y * vnc_width + x]` read
by the serialization loop. -/
def authAt (fd : eq_frame_data) (p : Int × Int) : Nat :=
  fd.vnc_framebuffer.getD (flatIdx fd.vnc_width p) 0

/-- The wire block one dirty rectangle contributes:
`os << r.x << r.y << r.w << r.h` followed by the rectangle's pixels in
row-major order. -/
def serializeRect (fd : eq_frame_data) (r : rectangle_t) : List Wire :=
  [Wire.wInt r.x, Wire.wInt r.y, Wire.wInt r.w, Wire.wInt r.h] ++
    (rectPoints r).map (fun p => Wire.wPix (authAt fd p))

/-- `eq_frame_data::getInstanceData`: emits `vnc_width`, `vnc_height`, the
canvas array, the dirty-rectangle count, then each rectangle's bounds and
pixels. -/
def getInstanceData (fd : eq_frame_data) : List Wire :=
  [Wire.wInt fd.vnc_width, Wire.wInt fd.vnc_height, Wire.wFloats fd.canvas,
   Wire.wSize fd.vnc_dirty_rectangles.length] ++
  (fd.vnc_dirty_rectangles.map (serializeRect fd)).flatten

/-- `std::vector::resize`: keep a prefix, zero-fill any extension. -/
def resizeVec (b : List Nat) (n : Nat) : List Nat :=
  b.take n ++ List.replicate (n - b.length) 0

/-- The inner pixel-reading loop of `applyInstanceData`: for each position of
the rectangle (row-major) read one pixel from the stream and store it at
`vnc_framebuffer[y * w + x]`. -/
def readRectPixels (w : Int) : List (Int × Int) → List Wire → List Nat →
    Option (List Nat × List Wire)
  | [], s, buf => some (buf, s)
  | p :: ps, Wire.wPix v :: s, buf => readRectPixels w ps s (buf.set (flatIdx w p) v)
  | _ :: _, _, _ => none

/-- The outer rectangle loop of `applyInstanceData`: read `n` rectangles, each
as four `int` bounds followed by its pixels. -/
def readRects (w : Int) : Nat → List Wire → List Nat → Option (List Nat × List Wire)
  | 0, s, buf => some (buf, s)
  | n + 1, Wire.wInt x :: Wire.wInt y :: Wire.wInt rw :: Wire.wInt rh :: s, buf =>
      match readRectPixels w (rectPoints ⟨x, y, rw, rh⟩) s buf with
      | some (buf2, s2) => readRects w n s2 buf2
      | none => none
  | _ + 1, _, _ => none

/-- `eq_frame_data::applyInstanceData`: read `w`, `h`; if either differs from
the replica's current dimensions, resize the buffer to `w * h`; read the
canvas array and the rectangle count; then read each rectangle's bounds and
write its pixels into the buffer.  A stream that does not match the expected
shape yields `none`. -/
def applyInstanceData (s : List Wire) (fd : eq_frame_data) : Option eq_frame_data :=
  match s with
  | Wire.wInt w :: Wire.wInt h :: Wire.wFloats c :: Wire.wSize n :: s1 =>
      let buf0 := if w ≠ fd.vnc_width ∨ h ≠ fd.vnc_height then
          resizeVec fd.vnc_framebuffer (w * h).toNat
        else fd.vnc_framebuffer
      match readRects w n s1 buf0 with
      | some (buf, _) =>
          some { vnc_width := w, vnc_height := h, canvas := c,
                 vnc_framebuffer := buf
                 vnc_dirty_rectangles := fd.vnc_dirty_rectangles }
      | none => none
  | _ => none

/-- A freshly constructed `eq_frame_data` (the constructor sets
`vnc_width = vnc_height = 0` and leaves the vectors empty; the canvas array
is uninitialized in C++ and modelled as zeros, no theorem depends on it). -/
def freshReplica : eq_frame_data :=
  { vnc_width := 0
    vnc_height := 0
    canvas := List.replicate 6 0
    vnc_framebuffer := []
    vnc_dirty_rectangles := [] }

/- ### Remote-desktop events -/

/-- An event delivered by the libvncclient callbacks: a desktop resize
(`MallocFrameBuffer` → `vnc_resize`) or a rectangle update
(`GotFrameBufferUpdate` → `vnc_update`). -/
inductive VncEvent where
  | resize (w h : Int)
  | update (x y w h : Int)
deriving DecidableEq, Repr

/-- `vnc_resize`: store the new dimensions, resize the pixel buffer, clear
the dirty list and push the single full-extent rectangle
`{0, 0, client->width, client->height}`. -/
def vnc_resize (fd : eq_frame_data) (w h : Int) : eq_frame_data :=
  { fd with
    vnc_width := w
    vnc_height := h
    vnc_framebuffer := resizeVec fd.vnc_framebuffer (w * h).toNat
    vnc_dirty_rectangles := [⟨0, 0, w, h⟩] }

/-- `vnc_update`: unconditionally append the reported rectangle to the dirty
list (the callback performs no bounds check). -/
def vnc_update (fd : eq_frame_data) (x y w h : Int) : eq_frame_data :=
  { fd with vnc_dirty_rectangles := fd.vnc_dirty_rectangles ++ [⟨x, y, w, h⟩] }

/-- Dispatch one remote-desktop event to its callback. -/
def applyEvent (fd : eq_frame_data) : VncEvent → eq_frame_data
  | VncEvent.resize w h => vnc_resize fd w h
  | VncEvent.update x y w h => vnc_update fd x y w h

/-- Apply a sequence of remote-desktop events in order (the session loop
processes them one after the other before committing). -/
def applyEvents (fd : eq_frame_data) (es : List VncEvent) : eq_frame_data :=
  es.foldl applyEvent fd

/- ### Key mapping -/

/-- Modelled from the spec: the fixed translation table of
`eqkey_to_rfbkey`.  The `case` labels (`eq::KC_*`) and result values
(`XK_*`) come from the external Equalizer and X11 headers, which are not part
of this repository's sources: Equalizer's special key codes start at 256
(`KC_ESCAPE = 256` through `KC_F24 = 291`, in the order of the switch), and
the X11 keysyms are the standard `keysymdef.h` values.  A C++ `switch` over
distinct constants is modelled as first-match lookup in this table. -/
def keyTable : List (Nat × Nat) :=
  [(256, 0xff1b),  -- KC_ESCAPE    -> XK_Escape
   (257, 0xff08),  -- KC_BACKSPACE -> XK_BackSpace
   (258, 0xff0d),  -- KC_RETURN    -> XK_Return
   (259, 0xff09),  -- KC_TAB       -> XK_Tab
   (260, 0xff50),  -- KC_HOME      -> XK_Home
   (261, 0xff51),  -- KC_LEFT      -> XK_Left
   (262, 0xff52),  -- KC_UP        -> XK_Up
   (263, 0xff53),  -- KC_RIGHT     -> XK_Right
   (264, 0xff54),  -- KC_DOWN      -> XK_Down
   (265, 0xff55),  -- KC_PAGE_UP   -> XK_Page_Up
   (266, 0xff56),  -- KC_PAGE_DOWN -> XK_Page_Down
   (267, 0xff57),  -- KC_END       -> XK_End
   (268, 0xffbe), (269, 0xffbf), (270, 0xffc0), (271, 0xffc1),  -- F1-F4
   (272, 0xffc2), (273, 0xffc3), (274, 0xffc4), (275, 0xffc5),  -- F5-F8
   (276, 0xffc6), (277, 0xffc7), (278, 0xffc8), (279, 0xffc9),  -- F9-F12
   (280, 0xffca), (281, 0xffcb), (282, 0xffcc), (283, 0xffcd),  -- F13-F16
   (284, 0xffce), (285, 0xffcf), (286, 0xffd0), (287, 0xffd1),  -- F17-F20
   (288, 0xffd2), (289, 0xffd3), (290, 0xffd4), (291, 0xffd5)]  -- F21-F24

/-- `eqkey_to_rfbkey`: translate the special constants through the fixed
table; the `default` branch passes every other code through unchanged. -/
def eqkey_to_rfbkey (k : Nat) : Nat :=
  match keyTable.lookup k with
  | some v => v
  | none => k

/- ### Wall geometry -/

/-- A 3-vector of (idealized) `float` components. -/
structure Vec3 where
  x : ℚ
  y : ℚ
  z : ℚ
deriving DecidableEq, Repr

/-- The fourth wall corner computed in `frameDraw`:
`tr = br + (tl - bl)`, componentwise. -/
def wallTR (bl br tl : Vec3) : Vec3 :=
  ⟨br.x + (tl.x - bl.x), br.y + (tl.y - bl.y), br.z + (tl.z - bl.z)⟩

/-- The wall-mode quad emitted by `eq_channel::frameDraw`: four
(position, texture-coordinate) pairs issued in the order bottom-left,
bottom-right, top-right, top-left. -/
def frameDrawWall (bl br tl : Vec3) : List (Vec3 × ℚ × ℚ) :=
  [(bl, (0, 1)), (br, (1, 1)), (wallTR bl br tl, (1, 0)), (tl, (0, 0))]

/- ### Canvas fit (`eq_config::startFrame`) -/

/-- The canvas-fit computation of `eq_config::startFrame` in canvas mode,
with `float` arithmetic idealized over `ℚ`.  Inputs are the desktop
dimensions (`frame_data.vnc_width/height`) and the canvas wall dimensions
(`canvas[0]`, `canvas[1]`); the result is
`(canvas[2], canvas[3], canvas[4], canvas[5])`, i.e.
(originX, originY, extentW, extentH). -/
def startFrameCanvasFit (vncW vncH canvas0 canvas1 : ℚ) : ℚ × ℚ × ℚ × ℚ :=
  let ar := vncW / vncH
  let canvas_ar := canvas0 / canvas1
  let extent : ℚ × ℚ := if ar ≥ canvas_ar then (1, canvas_ar / ar) else (ar / canvas_ar, 1)
  ((1 - extent.1) / 2, (1 - extent.2) / 2, extent.1, extent.2)

/- ### Pointer mapping (`eqptr_to_rfbptr`) -/

/-- Truncation of a rational toward zero, the effect of the C++
`float`-to-`int` conversion `x = event_x`. -/
def truncQ (q : ℚ) : Int :=
  if q < 0 then ⌈q⌉ else ⌊q⌋

/-- The unclamped horizontal pointer position, written as the spec's step
list: (1) normalize by the channel pixel width, (2) map into canvas
fractions via the viewport offset/extent, (3) subtract the canvas-rectangle
origin and divide by its extent, (4) scale by the desktop width. -/
def pointerRawX (ex pvpW vpX vpW c2 c4 : ℚ) (vncW : Int) : ℚ :=
  (((vpX + (ex / pvpW) * vpW) - c2) / c4) * (vncW : ℚ)

/-- The unclamped vertical pointer position: as `pointerRawX` but with the
vertical axis flipped (`1 - (vp.y + (1 - e.y/pvp.h) * vp.h)`), matching the
convention that canvas y grows upward. -/
def pointerRawY (ey pvpH vpY vpH c3 c5 : ℚ) (vncH : Int) : ℚ :=
  (((1 - (vpY + (1 - ey / pvpH) * vpH)) - c3) / c5) * (vncH : ℚ)

/-- The coordinate part of `eqptr_to_rfbptr`, transcribed statement by
statement from the source (float arithmetic idealized over `ℚ`); the final
integer coordinates are truncated and then clamped by the two `if`
statements. -/
def eqptr_to_rfbptr (ex ey pvpW pvpH vpX vpY vpW vpH c2 c3 c4 c5 : ℚ)
    (vncW vncH : Int) : Int × Int :=
  let event_channel_x := ex / pvpW
  let event_channel_y := ey / pvpH
  let event_canvas_x := vpX + event_channel_x * vpW
  let event_canvas_y0 := vpY + (1 - event_channel_y) * vpH
  let event_canvas_y := 1 - event_canvas_y0
  let event_canvas_area_x := (event_canvas_x - c2) / c4
  let event_canvas_area_y := (event_canvas_y - c3) / c5
  let event_x := event_canvas_area_x * (vncW : ℚ)
  let event_y := event_canvas_area_y * (vncH : ℚ)
  let x0 := truncQ event_x
  let x1 := if x0 < 0 then 0 else x0
  let x2 := if x1 > vncW - 1 then vncW - 1 else x1
  let y0 := truncQ event_y
  let y1 := if y0 < 0 then 0 else y0
  let y2 := if y1 > vncH - 1 then vncH - 1 else y1
  (x2, y2)

/- ### Cylinder geometry (`eq_channel::frameDraw`, cylinder branch) -/

/-- The `dot` helper on 3-vectors. -/
def dot3 (v w : Vec3) : ℚ :=
  v.x * w.x + v.y * w.y + v.z * w.z

/-- The `cross` helper on 3-vectors. -/
def cross3 (v w : Vec3) : Vec3 :=
  ⟨v.y * w.z - v.z * w.y, v.z * w.x - v.x * w.z, v.x * w.y - v.y * w.x⟩

/-- The `rad_to_deg` helper, with `M_PI` taken as a parameter. -/
def rad_to_deg (pi rad : ℚ) : ℚ :=
  180 / pi * rad

/-- One OpenGL call issued by the cylinder branch of `frameDraw`:
matrix-stack transforms, strip delimiters, texture coordinates, vertices. -/
inductive GLCmd where
  | rotate (angle ax ay az : ℚ)
  | translate (tx ty tz : ℚ)
  | beginStrip
  | endStrip
  | texCoord (s t : ℚ)
  | vertex (vx vy vz : ℚ)
deriving DecidableEq, Repr

/-- The four calls one strip column `x` issues:
`glTexCoord2f(xf, 0); glVertex3f(px, py, pz); glTexCoord2f(xf, 1);
glVertex3f(px, -py, pz)`. -/
def cylColumn (tanQ cosQ sinQ : ℚ → ℚ)
    (radius phi_center phi_range theta_range : ℚ) (x : Nat) : List GLCmd :=
  let xf : ℚ := (x : ℚ) / 1000
  let phi := phi_center + (xf - 1 / 2) * phi_range
  let px := radius * cosQ phi
  let py := radius * tanQ (theta_range / 2)
  let pz := radius * sinQ phi
  [GLCmd.texCoord xf 0, GLCmd.vertex px py pz,
   GLCmd.texCoord xf 1, GLCmd.vertex px (-py) pz]

/-- The cylinder branch of `eq_channel::frameDraw` as the sequence of GL
calls it issues, with the transcendental `float` functions and `M_PI` taken
as parameters and their arithmetic idealized over `ℚ`.  Note the branch
issues `glRotatef(90, 0, 1, 0)` before the up-alignment rotation and the
translation to the cylinder center, and then a triangle strip of
`N = 1000` segments (1001 columns). -/
def frameDrawCylinder (sqrtQ acosQ tanQ cosQ sinQ : ℚ → ℚ) (pi : ℚ)
    (center up : Vec3) (radius phi_center phi_range theta_range : ℚ) : List GLCmd :=
  let default_up : Vec3 := ⟨0, 1, 0⟩
  let rot_axis := cross3 default_up up
  let rot_angle := acosQ (dot3 default_up up / sqrtQ (dot3 default_up default_up * dot3 up up))
  [GLCmd.rotate 90 0 1 0,
   GLCmd.rotate (rad_to_deg pi rot_angle) rot_axis.x rot_axis.y rot_axis.z,
   GLCmd.translate center.x center.y center.z,
   GLCmd.beginStrip] ++
  ((List.range 1001).map (cylColumn tanQ cosQ sinQ radius phi_center phi_range theta_range)).flatten ++
  [GLCmd.endStrip]

/-- Whether a GL call manipulates the modelview transform. -/
def isTransform : GLCmd → Bool
  | GLCmd.rotate _ _ _ _ => true
  | GLCmd.translate _ _ _ => true
  | _ => false

/-- The transform calls of a GL call sequence, in issue order. -/
def transformCmds (l : List GLCmd) : List GLCmd :=
  l.filter isTransform

/- ### Helper lemmas -/

/-- Lookup misses when no key of the table matches. -/
theorem lookup_eq_none_of_forall {β : Type} (k : Nat) (l : List (Nat × β))
    (h : ∀ p ∈ l, p.1 ≠ k) : l.lookup k = none := by
  induction l with
  | nil => rfl
  | cons p t ih =>
    obtain ⟨a, b⟩ := p
    have ha : a ≠ k := h (a, b) (List.mem_cons_self _ _)
    have hk : (k == a) = false := by
      simp [ha.symm]
    simp only [List.lookup, hk]
    exact ih fun q hq => h q (List.mem_cons_of_mem _ hq)

/- ### C7: key mapping -/

/-- C7: the key mapping is total on the fixed special-key table and the
identity everywhere else; in particular the local Escape code (`KC_ESCAPE =
256`) maps to the remote escape symbol (`XK_Escape = 0xff1b`) and the
printable code 97 (`'a'`) passes through unchanged. -/
theorem C7_key_mapping :
    (∀ k : Nat, (∀ p ∈ keyTable, p.1 ≠ k) → eqkey_to_rfbkey k = k) ∧
    (∀ p ∈ keyTable, eqkey_to_rfbkey p.1 = p.2) ∧
    eqkey_to_rfbkey 256 = 0xff1b ∧ eqkey_to_rfbkey 97 = 97 := by
  refine ⟨?_, by decide, by decide, by decide⟩
  intro k hk
  unfold eqkey_to_rfbkey
  rw [lookup_eq_none_of_forall k keyTable hk]

/-- Witness for C7: the unmapped code 1000 passes through unchanged. -/
theorem C7_key_mapping_witness : eqkey_to_rfbkey 1000 = 1000 :=
  C7_key_mapping.1 1000 (by decide)

/- ### C8: wall quad -/

/-- C8: the wall quad's positions are `BL, BR, BR + (TL - BL), TL` in that
winding order, its texture coordinates are `(0,1), (1,1), (1,0), (0,0)`, and
`BL = (0,0,0), BR = (1,0,0), TL = (0,1,0)` yields `TR = (1,1,0)`. -/
theorem C8_wall_quad (bl br tl : Vec3) :
    (frameDrawWall bl br tl).map Prod.fst =
      [bl, br, ⟨br.x + (tl.x - bl.x), br.y + (tl.y - bl.y), br.z + (tl.z - bl.z)⟩, tl] ∧
    (frameDrawWall bl br tl).map Prod.snd = [(0, 1), (1, 1), (1, 0), (0, 0)] ∧
    wallTR ⟨0, 0, 0⟩ ⟨1, 0, 0⟩ ⟨0, 1, 0⟩ = ⟨1, 1, 0⟩ :=
  ⟨rfl, rfl, by norm_num [wallTR]⟩

/- ### C5: canvas fit -/

/-- C5: for positive desktop and canvas dimensions the canvas fit yields
`extentW = 1, extentH = surfaceAR/desktopAR` when `desktopAR ≥ surfaceAR` and
`extentW = desktopAR/surfaceAR, extentH = 1` otherwise, the origin is
centered, and both extents are at most 1 with at least one equal to 1. -/
theorem C5_canvas_fit (w h cw ch : ℚ) (hw : 0 < w) (hh : 0 < h)
    (hcw : 0 < cw) (hch : 0 < ch) :
    (w / h ≥ cw / ch →
      (startFrameCanvasFit w h cw ch).2.2.1 = 1 ∧
      (startFrameCanvasFit w h cw ch).2.2.2 = (cw / ch) / (w / h)) ∧
    (¬ w / h ≥ cw / ch →
      (startFrameCanvasFit w h cw ch).2.2.1 = (w / h) / (cw / ch) ∧
      (startFrameCanvasFit w h cw ch).2.2.2 = 1) ∧
    (startFrameCanvasFit w h cw ch).1 = (1 - (startFrameCanvasFit w h cw ch).2.2.1) / 2 ∧
    (startFrameCanvasFit w h cw ch).2.1 = (1 - (startFrameCanvasFit w h cw ch).2.2.2) / 2 ∧
    (startFrameCanvasFit w h cw ch).2.2.1 ≤ 1 ∧
    (startFrameCanvasFit w h cw ch).2.2.2 ≤ 1 ∧
    ((startFrameCanvasFit w h cw ch).2.2.1 = 1 ∨ (startFrameCanvasFit w h cw ch).2.2.2 = 1) := by
  have hdar : 0 < w / h := div_pos hw hh
  have hsar : 0 < cw / ch := div_pos hcw hch
  by_cases hc : w / h ≥ cw / ch
  · have hfit : startFrameCanvasFit w h cw ch =
        ((1 - 1) / 2, (1 - (cw / ch) / (w / h)) / 2, 1, (cw / ch) / (w / h)) := by
      simp only [startFrameCanvasFit]
      rw [if_pos hc]
    rw [hfit]
    exact ⟨fun _ => ⟨rfl, rfl⟩, fun hn => absurd hc hn, rfl, rfl, le_refl 1,
      (div_le_one hdar).mpr hc, Or.inl rfl⟩
  · have hfit : startFrameCanvasFit w h cw ch =
        ((1 - (w / h) / (cw / ch)) / 2, (1 - 1) / 2, (w / h) / (cw / ch), 1) := by
      simp only [startFrameCanvasFit]
      rw [if_neg hc]
    rw [hfit]
    exact ⟨fun hy => absurd hy hc, fun _ => ⟨rfl, rfl⟩, rfl, rfl,
      (div_le_one hsar).mpr (le_of_lt (lt_of_not_ge hc)), le_refl 1, Or.inr rfl⟩

/-- Witness for C5 at the spec's example: desktop 800×600 against a 16:9
canvas gives `extentW = 3/4` and `extentH = 1`. -/
theorem C5_canvas_fit_witness :
    (0 : ℚ) < 800 ∧
    (startFrameCanvasFit 800 600 16 9).2.2.1 = ((800 : ℚ) / 600) / ((16 : ℚ) / 9) ∧
    (startFrameCanvasFit 800 600 16 9).2.2.2 = 1 :=
  ⟨by norm_num,
   (C5_canvas_fit 800 600 16 9 (by norm_num) (by norm_num) (by norm_num) (by norm_num)).2.1
     (by norm_num)⟩

/- ### C2: dirty list after a resize -/

/-- Counterexample to C2 as stated: an update event arriving between the
resize and the commit is appended to the dirty list, so the committed
snapshot holds two rectangles, not exactly one. -/
theorem C2_update_before_commit_counterexample :
    (applyEvents freshReplica
        [VncEvent.resize 2 2, VncEvent.update 0 0 1 1]).vnc_dirty_rectangles.length ≠ 1 := by
  decide

/-- C2 (amended): immediately after a resize — with no further events before
the commit — the dirty list holds exactly the single rectangle
`{0, 0, newWidth, newHeight}`, regardless of all events that preceded the
resize. -/
theorem C2_resize_dirty_list (fd : eq_frame_data) (es : List VncEvent) (w h : Int) :
    (applyEvents fd (es ++ [VncEvent.resize w h])).vnc_dirty_rectangles =
      [⟨0, 0, w, h⟩] := by
  unfold applyEvents
  rw [List.foldl_append]
  rfl

/- ### C3: dirty rectangles and bounds -/

/-- Counterexample to C3 as stated: `vnc_update` performs no bounds check, so
an out-of-bounds rectangle from the source is appended to the dirty list
rather than rejected. -/
theorem C3_no_rejection_counterexample :
    (applyEvents freshReplica
        [VncEvent.resize 2 2, VncEvent.update 0 0 5 5]).vnc_dirty_rectangles =
      [⟨0, 0, 2, 2⟩, ⟨0, 0, 5, 5⟩] ∧
    ¬ rectInBounds 2 2 ⟨0, 0, 5, 5⟩ := by
  decide

/-- An event the remote-desktop source is trusted to deliver: updates must
lie within the dimensions current when they arrive (resizes carry their own
dimensions). -/
def eventOk (fd : eq_frame_data) : VncEvent → Prop
  | VncEvent.resize _ _ => True
  | VncEvent.update x y w h => rectInBounds fd.vnc_width fd.vnc_height ⟨x, y, w, h⟩

instance (fd : eq_frame_data) (e : VncEvent) : Decidable (eventOk fd e) := by
  cases e with
  | resize w h => exact Decidable.isTrue trivial
  | update x y w h => unfold eventOk; exact inferInstance

/-- A whole event sequence the source is trusted to deliver, judged against
the dimensions in force when each event is applied. -/
def eventsOk : eq_frame_data → List VncEvent → Prop
  | _, [] => True
  | fd, e :: es => eventOk fd e ∧ eventsOk (applyEvent fd e) es

instance instDecidableEventsOk (fd : eq_frame_data) (es : List VncEvent) :
    Decidable (eventsOk fd es) :=
  match es with
  | [] => Decidable.isTrue trivial
  | e :: es' => @instDecidableAnd _ _ _ (instDecidableEventsOk (applyEvent fd e) es')

/-- C3 (amended): the callbacks never reject a rectangle; the in-bounds
invariant on `dirtyRects` holds in every state reached from a state
satisfying it, provided the source only delivers in-bounds updates (the
rectangle a resize pushes is always in bounds of the new dimensions). -/
theorem C3_dirty_rects_in_bounds (fd : eq_frame_data) (es : List VncEvent)
    (h0 : ∀ r ∈ fd.vnc_dirty_rectangles, rectInBounds fd.vnc_width fd.vnc_height r)
    (hok : eventsOk fd es) :
    ∀ r ∈ (applyEvents fd es).vnc_dirty_rectangles,
      rectInBounds (applyEvents fd es).vnc_width (applyEvents fd es).vnc_height r := by
  induction es generalizing fd with
  | nil => exact h0
  | cons e es ih =>
    obtain ⟨he, hes⟩ := hok
    have hstep : applyEvents fd (e :: es) = applyEvents (applyEvent fd e) es := rfl
    rw [hstep]
    refine ih (applyEvent fd e) ?_ hes
    cases e with
    | resize w h =>
      intro r hr
      have hre : r = ⟨0, 0, w, h⟩ := List.mem_singleton.mp hr
      subst hre
      simp [applyEvent, vnc_resize, rectInBounds]
    | update x y w h =>
      intro r hr
      rcases List.mem_append.mp hr with hold | hnew
      · exact h0 r hold
      · have : r = ⟨x, y, w, h⟩ := List.mem_singleton.mp hnew
        subst this
        exact he

/-- Witness for C3 (amended) on a concrete trusted event sequence and a
concrete member of the resulting dirty list. -/
theorem C3_dirty_rects_in_bounds_witness :
    rectInBounds (applyEvents freshReplica
        [VncEvent.resize 2 2, VncEvent.update 0 0 1 1]).vnc_width
      (applyEvents freshReplica
        [VncEvent.resize 2 2, VncEvent.update 0 0 1 1]).vnc_height ⟨0, 0, 1, 1⟩ :=
  C3_dirty_rects_in_bounds freshReplica [VncEvent.resize 2 2, VncEvent.update 0 0 1 1]
    (by decide) (by decide) ⟨0, 0, 1, 1⟩ (by decide)

/- ### List helper lemmas for the replication proofs -/

/-- getD as an optional lookup. -/
theorem getD_as_getElem (b : List Nat) (i : Nat) : b.getD i 0 = b[i]?.getD 0 :=
  List.getD_eq_getElem?_getD b i 0

/-- Setting one index leaves the value at a different index unchanged. -/
theorem set_getD_ne (b : List Nat) (i j v : Nat) (h : j ≠ i) :
    (b.set j v).getD i 0 = b.getD i 0 := by
  rw [getD_as_getElem, getD_as_getElem, List.getElem?_set_ne h]

/-- Setting an in-range index stores the value there. -/
theorem set_getD_eq (b : List Nat) (i v : Nat) (h : i < b.length) :
    (b.set i v).getD i 0 = v := by
  rw [getD_as_getElem, List.getElem?_set_eq_of_lt v h]
  rfl

/-- A fold of single-pixel writes keeps the buffer length. -/
theorem foldl_set_length {β : Type} (u : β → Nat) (g : β → Nat) :
    ∀ (pts : List β) (b : List Nat),
      (pts.foldl (fun acc q => acc.set (g q) (u q)) b).length = b.length := by
  intro pts
  induction pts with
  | nil => intro b; rfl
  | cons q t ih => intro b; rw [List.foldl_cons, ih, List.length_set]

/-- A fold of single-pixel writes leaves indices it never writes unchanged. -/
theorem foldl_set_getD_not_mem {β : Type} (u : β → Nat) (g : β → Nat) :
    ∀ (pts : List β) (b : List Nat) (i : Nat), (∀ p ∈ pts, g p ≠ i) →
      (pts.foldl (fun acc q => acc.set (g q) (u q)) b).getD i 0 = b.getD i 0 := by
  intro pts
  induction pts with
  | nil => intro b i _; rfl
  | cons q t ih =>
    intro b i hne
    rw [List.foldl_cons, ih _ i (fun p hp => hne p (List.mem_cons_of_mem _ hp))]
    exact set_getD_ne b i (g q) (u q) (hne q (List.mem_cons_self _ _))

/-- A fold of writes that always stores `f(index)` at `index` ends with
`f(index)` at every in-range index it writes at least once. -/
theorem foldl_set_getD_mem {β : Type} (u : β → Nat) (f : Nat → Nat) (g : β → Nat)
    (hu : ∀ q, u q = f (g q)) :
    ∀ (pts : List β) (b : List Nat) (p : β), p ∈ pts → g p < b.length →
      (pts.foldl (fun acc q => acc.set (g q) (u q)) b).getD (g p) 0 = f (g p) := by
  intro pts
  induction pts with
  | nil => intro b p hp _; exact absurd hp (List.not_mem_nil p)
  | cons q t ih =>
    intro b p hp hlen
    rw [List.foldl_cons]
    by_cases hex : ∃ p' ∈ t, g p' = g p
    · obtain ⟨p', hp', hgp⟩ := hex
      have h2 := ih (b.set (g q) (u q)) p' hp' (by rw [List.length_set]; omega)
      rwa [hgp] at h2
    · have hge : g p = g q := by
        rcases List.mem_cons.mp hp with h | h
        · rw [h]
        · exact absurd ⟨p, h, rfl⟩ hex
      rw [foldl_set_getD_not_mem u g t _ (g p) (fun p' hp' he => hex ⟨p', hp', he⟩)]
      rw [hge, set_getD_eq b (g q) (u q) (hge ▸ hlen), hu q]

/-- Length of a flattened list of equal-length blocks. -/
theorem flatten_blocks_length {α : Type} (g : Nat → List α) (B : Nat)
    (hB : ∀ j, (g j).length = B) :
    ∀ n : Nat, ((List.range n).map g).flatten.length = n * B := by
  intro n
  induction n with
  | zero => simp
  | succ n ih =>
    rw [List.range_succ, List.map_append, List.flatten_append, List.length_append, ih]
    simp [hB, Nat.succ_mul]

/-- Indexing into a flattened list of equal-length blocks. -/
theorem flatten_blocks_get {α : Type} (g : Nat → List α) (B : Nat)
    (hB : ∀ j, (g j).length = B) :
    ∀ (n q i : Nat), q < n → i < B →
      ((List.range n).map g).flatten[q * B + i]? = (g q)[i]? := by
  intro n
  induction n with
  | zero => intro q i hq _; exact absurd hq (Nat.not_lt_zero q)
  | succ n ih =>
    intro q i hq hi
    rw [List.range_succ, List.map_append, List.flatten_append]
    by_cases h : q < n
    · rw [List.getElem?_append_left, ih q i h hi]
      rw [flatten_blocks_length g B hB n]
      have h1 : q * B + i < (q + 1) * B := by
        rw [Nat.succ_mul]; omega
      have h2 : (q + 1) * B ≤ n * B := Nat.mul_le_mul_right B (by omega)
      omega
    · have hqn : q = n := by omega
      subst hqn
      rw [List.getElem?_append_right (by rw [flatten_blocks_length g B hB q]; omega)]
      rw [flatten_blocks_length g B hB q]
      simp [Nat.add_sub_cancel_left, List.getElem?_append_left (hB q ▸ hi)]

/- ### Rectangle point-list lemmas -/

/-- The serialization loop visits `h * w` pixel positions. -/
theorem rectPoints_length (r : rectangle_t) :
    (rectPoints r).length = r.h.toNat * r.w.toNat := by
  unfold rectPoints
  exact flatten_blocks_length _ r.w.toNat (fun j => by simp) r.h.toNat

/-- Row-major order of the serialization loop: position `j * w + i` of the
point list is pixel `(x + i, y + j)`. -/
theorem rectPoints_get (r : rectangle_t) (i j : Nat)
    (hi : i < r.w.toNat) (hj : j < r.h.toNat) :
    (rectPoints r)[j * r.w.toNat + i]? = some (r.x + (i : Int), r.y + (j : Int)) := by
  unfold rectPoints
  rw [flatten_blocks_get _ r.w.toNat (fun j => by simp) r.h.toNat j i hj hi]
  rw [List.getElem?_map, List.getElem?_range hi]
  rfl

/-- The serialization loop visits exactly the points the rectangle covers. -/
theorem mem_rectPoints (r : rectangle_t) (p : Int × Int) :
    p ∈ rectPoints r ↔ coversPt r p := by
  obtain ⟨px, py⟩ := p
  unfold rectPoints
  constructor
  · intro hmem
    obtain ⟨l, hl, hp⟩ := List.mem_flatten.mp hmem
    obtain ⟨j, hj, rfl⟩ := List.mem_map.mp hl
    obtain ⟨i, hi, heq⟩ := List.mem_map.mp hp
    rw [List.mem_range] at hj hi
    rw [Prod.mk.injEq] at heq
    obtain ⟨hx, hy⟩ := heq
    show r.x ≤ px ∧ px < r.x + r.w ∧ r.y ≤ py ∧ py < r.y + r.h
    refine ⟨by omega, by omega, by omega, by omega⟩
  · intro hc
    obtain ⟨h1, h2, h3, h4⟩ := hc
    simp only at h1 h2 h3 h4
    have hj : (py - r.y).toNat < r.h.toNat := by omega
    have hi : (px - r.x).toNat < r.w.toNat := by omega
    refine List.mem_flatten.mpr ⟨_, List.mem_map_of_mem _ (List.mem_range.mpr hj), ?_⟩
    refine List.mem_map.mpr ⟨(px - r.x).toNat, List.mem_range.mpr hi, ?_⟩
    rw [Prod.mk.injEq]
    constructor <;> omega

/-- The flat row-major index is injective on in-range pixel positions. -/
theorem flatIdx_inj (W H : Int) (a b : Int × Int)
    (ha1 : 0 ≤ a.1) (ha2 : a.1 < W) (ha3 : 0 ≤ a.2) (ha4 : a.2 < H)
    (hb1 : 0 ≤ b.1) (hb2 : b.1 < W) (hb3 : 0 ≤ b.2) (hb4 : b.2 < H)
    (heq : flatIdx W a = flatIdx W b) : a = b := by
  obtain ⟨ax, ay⟩ := a
  obtain ⟨bx, by'⟩ := b
  simp only at ha1 ha2 ha3 ha4 hb1 hb2 hb3 hb4
  unfold flatIdx at heq
  simp only at heq
  have hW0 : 0 < W := by omega
  have h0a : 0 ≤ ay * W + ax := add_nonneg (mul_nonneg ha3 (le_of_lt hW0)) ha1
  have h0b : 0 ≤ by' * W + bx := add_nonneg (mul_nonneg hb3 (le_of_lt hW0)) hb1
  have heq2 : ay * W + ax = by' * W + bx := by
    have hc := congrArg (fun n : Nat => (n : Int)) heq
    simp only at hc
    rwa [Int.toNat_of_nonneg h0a, Int.toNat_of_nonneg h0b] at hc
  have hy : ay = by' := by
    by_contra hne
    rcases lt_or_gt_of_ne (sub_ne_zero.mpr (Ne.symm hne)) with hneg | hpos
    · have h1 : (by' - ay) * W ≤ (-1) * W :=
        mul_le_mul_of_nonneg_right (by omega) (le_of_lt hW0)
      have hd : ax - bx = (by' - ay) * W := by linear_combination heq2
      linarith
    · have h1 : 1 * W ≤ (by' - ay) * W :=
        mul_le_mul_of_nonneg_right (by omega) (le_of_lt hW0)
      have hd : ax - bx = (by' - ay) * W := by linear_combination heq2
      linarith
  have hx : ax = bx := by
    rw [hy] at heq2
    linarith
  rw [hx, hy]

/- ### Parsing the serialized stream -/

/-- Structure-eta for rectangles: reading back the four bounds reconstructs
the rectangle. -/
theorem rectangle_eta (r : rectangle_t) : (⟨r.x, r.y, r.w, r.h⟩ : rectangle_t) = r :=
  rfl

/-- `readRectPixels` applied to exactly the pixels a point list serializes
consumes them and performs one write per point. -/
theorem readRectPixels_spec (w : Int) (v : Int × Int → Nat) :
    ∀ (pts : List (Int × Int)) (rest : List Wire) (b : List Nat),
      readRectPixels w pts ((pts.map (fun p => Wire.wPix (v p))) ++ rest) b =
        some (pts.foldl (fun acc q => acc.set (flatIdx w q) (v q)) b, rest) := by
  intro pts
  induction pts with
  | nil => intro rest b; rfl
  | cons p t ih =>
    intro rest b
    rw [List.map_cons, List.cons_append]
    show readRectPixels w t (t.map (fun p => Wire.wPix (v p)) ++ rest)
        (b.set (flatIdx w p) (v p)) = _
    rw [ih rest (b.set (flatIdx w p) (v p)), List.foldl_cons]

/-- One rectangle block at the head of a stream, unfolded. -/
theorem serializeRect_cons (fd : eq_frame_data) (r : rectangle_t) (X : List Wire) :
    serializeRect fd r ++ X =
      Wire.wInt r.x :: Wire.wInt r.y :: Wire.wInt r.w :: Wire.wInt r.h ::
        ((rectPoints r).map (fun p => Wire.wPix (authAt fd p)) ++ X) := by
  unfold serializeRect
  simp [List.cons_append, List.append_assoc]

/-- One step of the rectangle-reading loop, unfolded. -/
theorem readRects_cons (w : Int) (n : Nat) (x y rw rh : Int) (s : List Wire)
    (buf : List Nat) :
    readRects w (n + 1)
        (Wire.wInt x :: Wire.wInt y :: Wire.wInt rw :: Wire.wInt rh :: s) buf =
      match readRectPixels w (rectPoints ⟨x, y, rw, rh⟩) s buf with
      | some (buf2, s2) => readRects w n s2 buf2
      | none => none :=
  rfl

/-- `readRects` applied to the serialized rectangle blocks of `fd` consumes
them all and folds the per-rectangle pixel writes over the buffer. -/
theorem readRects_spec (fd : eq_frame_data) (rest : List Wire) :
    ∀ (rs : List rectangle_t) (b : List Nat),
      readRects fd.vnc_width rs.length ((rs.map (serializeRect fd)).flatten ++ rest) b =
        some (rs.foldl (fun acc r => (rectPoints r).foldl
          (fun acc2 q => acc2.set (flatIdx fd.vnc_width q)
            (fd.vnc_framebuffer.getD (flatIdx fd.vnc_width q) 0)) acc) b, rest) := by
  intro rs
  induction rs with
  | nil => intro b; rfl
  | cons r t ih =>
    intro b
    rw [List.map_cons, List.flatten_cons, List.length_cons, List.append_assoc,
      serializeRect_cons, readRects_cons, rectangle_eta]
    rw [readRectPixels_spec fd.vnc_width (authAt fd) (rectPoints r)
      ((t.map (serializeRect fd)).flatten ++ rest) b]
    show readRects fd.vnc_width t.length ((t.map (serializeRect fd)).flatten ++ rest)
        ((rectPoints r).foldl (fun acc q => acc.set (flatIdx fd.vnc_width q) (authAt fd q)) b) = _
    rw [ih, List.foldl_cons]
    rfl

/-- Folding per-rectangle pixel writes over a rectangle list equals one fold
over the concatenation of all their point lists. -/
theorem foldl_rects_eq_flatten (step : List Nat → (Int × Int) → List Nat) :
    ∀ (rs : List rectangle_t) (b : List Nat),
      rs.foldl (fun acc r => (rectPoints r).foldl step acc) b =
        ((rs.map rectPoints).flatten).foldl step b := by
  intro rs
  induction rs with
  | nil => intro b; rfl
  | cons r t ih =>
    intro b
    rw [List.map_cons, List.flatten_cons, List.foldl_append, List.foldl_cons]
    exact ih _

/-- The concatenated point lists of a rectangle list contain exactly the
points covered by some member rectangle. -/
theorem mem_flatten_rectPoints (rs : List rectangle_t) (p : Int × Int) :
    p ∈ (rs.map rectPoints).flatten ↔ ∃ r ∈ rs, coversPt r p := by
  rw [List.mem_flatten]
  constructor
  · rintro ⟨l, hl, hp⟩
    obtain ⟨r, hr, rfl⟩ := List.mem_map.mp hl
    exact ⟨r, hr, (mem_rectPoints r p).mp hp⟩
  · rintro ⟨r, hr, hc⟩
    exact ⟨rectPoints r, List.mem_map_of_mem _ hr, (mem_rectPoints r p).mpr hc⟩

/-- The resize performed on a mismatching fresh replica (or skipped on a
matching one) always leaves the buffer `w * h` zeros. -/
theorem fresh_buffer_after_header (w h : Int) :
    (if w ≠ (0 : Int) ∨ h ≠ (0 : Int) then resizeVec [] (w * h).toNat else ([] : List Nat)) =
      List.replicate (w * h).toNat 0 := by
  by_cases hc : w ≠ (0 : Int) ∨ h ≠ (0 : Int)
  · rw [if_pos hc]
    unfold resizeVec
    simp
  · rw [if_neg hc]
    push_neg at hc
    obtain ⟨rfl, rfl⟩ := hc
    rfl

/-- Applying a serialized snapshot always parses, and its effect on any
replica is: adopt the authoritative dimensions and canvas, start from either
the resized or the untouched replica buffer, and perform one write per
serialized pixel position, each storing the authoritative value for its flat
index. -/
theorem applyInstanceData_getInstanceData (fd rep : eq_frame_data) :
    applyInstanceData (getInstanceData fd) rep =
      some { vnc_width := fd.vnc_width
             vnc_height := fd.vnc_height
             canvas := fd.canvas
             vnc_framebuffer :=
               ((fd.vnc_dirty_rectangles.map rectPoints).flatten).foldl
                 (fun acc q => acc.set (flatIdx fd.vnc_width q)
                   (fd.vnc_framebuffer.getD (flatIdx fd.vnc_width q) 0))
                 (if fd.vnc_width ≠ rep.vnc_width ∨ fd.vnc_height ≠ rep.vnc_height then
                   resizeVec rep.vnc_framebuffer (fd.vnc_width * fd.vnc_height).toNat
                 else rep.vnc_framebuffer)
             vnc_dirty_rectangles := rep.vnc_dirty_rectangles } := by
  have hgid : getInstanceData fd = Wire.wInt fd.vnc_width :: Wire.wInt fd.vnc_height ::
      Wire.wFloats fd.canvas :: Wire.wSize fd.vnc_dirty_rectangles.length ::
      ((fd.vnc_dirty_rectangles.map (serializeRect fd)).flatten ++ []) := by
    rw [List.append_nil]
    rfl
  rw [hgid]
  simp only [applyInstanceData]
  rw [readRects_spec fd [] fd.vnc_dirty_rectangles]
  rw [foldl_rects_eq_flatten]

/- ### C1: round trip onto a fresh replica -/

/-- C1: for a frame state with nonnegative dimensions whose dirty rectangles
lie within them, deserializing the serialized snapshot on a fresh replica
succeeds and reproduces the authoritative value of every pixel covered by
some transmitted rectangle. -/
theorem C1_serialize_roundtrip (fd : eq_frame_data)
    (hw : 0 ≤ fd.vnc_width) (hh : 0 ≤ fd.vnc_height)
    (hrects : ∀ r ∈ fd.vnc_dirty_rectangles, rectInBounds fd.vnc_width fd.vnc_height r) :
    ∃ fd', applyInstanceData (getInstanceData fd) freshReplica = some fd' ∧
      ∀ r ∈ fd.vnc_dirty_rectangles, ∀ p : Int × Int, coversPt r p →
        fd'.vnc_framebuffer.getD (flatIdx fd.vnc_width p) 0 =
          fd.vnc_framebuffer.getD (flatIdx fd.vnc_width p) 0 := by
  refine ⟨_, applyInstanceData_getInstanceData fd freshReplica, ?_⟩
  intro r hr p hp
  show (((fd.vnc_dirty_rectangles.map rectPoints).flatten).foldl
      (fun acc q => acc.set (flatIdx fd.vnc_width q)
        (fd.vnc_framebuffer.getD (flatIdx fd.vnc_width q) 0))
      (if fd.vnc_width ≠ (0 : Int) ∨ fd.vnc_height ≠ (0 : Int) then
        resizeVec [] (fd.vnc_width * fd.vnc_height).toNat
      else [])).getD (flatIdx fd.vnc_width p) 0 =
    fd.vnc_framebuffer.getD (flatIdx fd.vnc_width p) 0
  rw [fresh_buffer_after_header]
  have hcov := (mem_flatten_rectPoints fd.vnc_dirty_rectangles p).mpr ⟨r, hr, hp⟩
  obtain ⟨hc1, hc2, hc3, hc4⟩ := hp
  obtain ⟨hb1, hb2, hb3, hb4⟩ := hrects r hr
  have hpx : 0 ≤ p.1 := le_trans hb1 hc1
  have hpxW : p.1 < fd.vnc_width := lt_of_lt_of_le hc2 hb3
  have hpy : 0 ≤ p.2 := le_trans hb2 hc3
  have hpyH : p.2 < fd.vnc_height := lt_of_lt_of_le hc4 hb4
  have hWpos : 0 < fd.vnc_width := by omega
  have hHpos : 0 < fd.vnc_height := by omega
  have hflat : flatIdx fd.vnc_width p < (fd.vnc_width * fd.vnc_height).toNat := by
    have h1 : p.2 * fd.vnc_width ≤ (fd.vnc_height - 1) * fd.vnc_width :=
      mul_le_mul_of_nonneg_right (by omega) (le_of_lt hWpos)
    have h2 : (fd.vnc_height - 1) * fd.vnc_width + fd.vnc_width =
        fd.vnc_width * fd.vnc_height := by ring
    have h3 : p.2 * fd.vnc_width + p.1 < fd.vnc_width * fd.vnc_height := by linarith
    have h4 : (0 : Int) < fd.vnc_width * fd.vnc_height := mul_pos hWpos hHpos
    unfold flatIdx
    exact (Int.toNat_lt_toNat h4).mpr h3
  exact foldl_set_getD_mem _ (fun i => fd.vnc_framebuffer.getD i 0) (flatIdx fd.vnc_width)
    (fun q => rfl) _ _ p hcov (by rw [List.length_replicate]; exact hflat)

/-- Witness for C1 on a concrete 3×2 frame with one dirty rectangle. -/
theorem C1_serialize_roundtrip_witness :
    (0 : Int) ≤ 3 ∧
    (∃ fd', applyInstanceData (getInstanceData
        ⟨3, 2, List.replicate 6 0, [10, 11, 12, 13, 14, 15], [⟨1, 0, 2, 2⟩]⟩)
        freshReplica = some fd' ∧
      ∀ r ∈ [(⟨1, 0, 2, 2⟩ : rectangle_t)], ∀ p : Int × Int, coversPt r p →
        fd'.vnc_framebuffer.getD (flatIdx 3 p) 0 =
          ([10, 11, 12, 13, 14, 15] : List Nat).getD (flatIdx 3 p) 0) :=
  ⟨by decide,
   C1_serialize_roundtrip ⟨3, 2, List.replicate 6 0, [10, 11, 12, 13, 14, 15], [⟨1, 0, 2, 2⟩]⟩
     (by decide) (by decide) (by decide)⟩

/- ### C10: deserialization touches only transmitted pixels -/

/-- C10: applying a snapshot whose dimensions equal the replica's and whose
rectangles lie within them keeps the replica buffer's length and leaves every
in-range pixel outside all transmitted rectangles unchanged. -/
theorem C10_deserialize_outside_rects (src rep : eq_frame_data)
    (hW : src.vnc_width = rep.vnc_width) (hH : src.vnc_height = rep.vnc_height)
    (hrects : ∀ r ∈ src.vnc_dirty_rectangles,
      rectInBounds src.vnc_width src.vnc_height r) :
    ∃ rep', applyInstanceData (getInstanceData src) rep = some rep' ∧
      rep'.vnc_framebuffer.length = rep.vnc_framebuffer.length ∧
      ∀ p : Int × Int, 0 ≤ p.1 → p.1 < src.vnc_width → 0 ≤ p.2 → p.2 < src.vnc_height →
        (∀ r ∈ src.vnc_dirty_rectangles, ¬ coversPt r p) →
        rep'.vnc_framebuffer.getD (flatIdx src.vnc_width p) 0 =
          rep.vnc_framebuffer.getD (flatIdx src.vnc_width p) 0 := by
  have hcond : ¬ (src.vnc_width ≠ rep.vnc_width ∨ src.vnc_height ≠ rep.vnc_height) := by
    push_neg
    exact ⟨hW, hH⟩
  refine ⟨_, applyInstanceData_getInstanceData src rep, ?_, ?_⟩
  · show (((src.vnc_dirty_rectangles.map rectPoints).flatten).foldl
        (fun acc q => acc.set (flatIdx src.vnc_width q)
          (src.vnc_framebuffer.getD (flatIdx src.vnc_width q) 0))
        (if src.vnc_width ≠ rep.vnc_width ∨ src.vnc_height ≠ rep.vnc_height then
          resizeVec rep.vnc_framebuffer (src.vnc_width * src.vnc_height).toNat
        else rep.vnc_framebuffer)).length = rep.vnc_framebuffer.length
    rw [if_neg hcond, foldl_set_length]
  · intro p h1 h2 h3 h4 hout
    show (((src.vnc_dirty_rectangles.map rectPoints).flatten).foldl
        (fun acc q => acc.set (flatIdx src.vnc_width q)
          (src.vnc_framebuffer.getD (flatIdx src.vnc_width q) 0))
        (if src.vnc_width ≠ rep.vnc_width ∨ src.vnc_height ≠ rep.vnc_height then
          resizeVec rep.vnc_framebuffer (src.vnc_width * src.vnc_height).toNat
        else rep.vnc_framebuffer)).getD (flatIdx src.vnc_width p) 0 =
      rep.vnc_framebuffer.getD (flatIdx src.vnc_width p) 0
    rw [if_neg hcond]
    apply foldl_set_getD_not_mem
    intro q hq hflat
    obtain ⟨r, hr, hcov⟩ := (mem_flatten_rectPoints _ q).mp hq
    obtain ⟨hc1, hc2, hc3, hc4⟩ := hcov
    obtain ⟨hb1, hb2, hb3, hb4⟩ := hrects r hr
    have heqp : q = p := by
      refine flatIdx_inj src.vnc_width src.vnc_height q p ?_ ?_ ?_ ?_ h1 h2 h3 h4 hflat
      · omega
      · omega
      · omega
      · omega
    exact hout r hr (heqp ▸ ⟨hc1, hc2, hc3, hc4⟩)

/-- Witness for C10: a 3×2 replica receiving a one-rectangle snapshot keeps
its length and its pixels outside that rectangle. -/
theorem C10_deserialize_outside_rects_witness :
    ((3 : Int) = 3 ∧
    (∃ rep', applyInstanceData (getInstanceData
        ⟨3, 2, List.replicate 6 0, [10, 11, 12, 13, 14, 15], [⟨1, 0, 2, 2⟩]⟩)
        ⟨3, 2, List.replicate 6 0, [20, 21, 22, 23, 24, 25], []⟩ = some rep' ∧
      rep'.vnc_framebuffer.length = ([20, 21, 22, 23, 24, 25] : List Nat).length ∧
      ∀ p : Int × Int, 0 ≤ p.1 → p.1 < 3 → 0 ≤ p.2 → p.2 < 2 →
        (∀ r ∈ [(⟨1, 0, 2, 2⟩ : rectangle_t)], ¬ coversPt r p) →
        rep'.vnc_framebuffer.getD (flatIdx 3 p) 0 =
          ([20, 21, 22, 23, 24, 25] : List Nat).getD (flatIdx 3 p) 0)) :=
  ⟨rfl,
   C10_deserialize_outside_rects
     ⟨3, 2, List.replicate 6 0, [10, 11, 12, 13, 14, 15], [⟨1, 0, 2, 2⟩]⟩
     ⟨3, 2, List.replicate 6 0, [20, 21, 22, 23, 24, 25], []⟩
     (by decide) (by decide) (by decide)⟩

/- ### C4: layout of the serialized stream -/

/-- C4: the stream opens with width, height, canvas and the rectangle count;
each rectangle block is its four bounds followed by exactly `h * w` pixels
read from the authoritative buffer, position `j * w + i` of the pixel run
holding pixel `(x + i, y + j)` (row-major order); apart from these runs the
stream holds no pixel values. -/
theorem C4_serialize_stream (fd : eq_frame_data) :
    (getInstanceData fd).take 4 =
      [Wire.wInt fd.vnc_width, Wire.wInt fd.vnc_height, Wire.wFloats fd.canvas,
       Wire.wSize fd.vnc_dirty_rectangles.length] ∧
    (getInstanceData fd).drop 4 = (fd.vnc_dirty_rectangles.map (serializeRect fd)).flatten ∧
    (∀ r : rectangle_t, (serializeRect fd r).length = 4 + r.h.toNat * r.w.toNat) ∧
    (∀ r : rectangle_t, (serializeRect fd r).take 4 =
      [Wire.wInt r.x, Wire.wInt r.y, Wire.wInt r.w, Wire.wInt r.h]) ∧
    (∀ r : rectangle_t, ∀ i j : Nat, i < r.w.toNat → j < r.h.toNat →
      (serializeRect fd r)[4 + (j * r.w.toNat + i)]? =
        some (Wire.wPix (authAt fd (r.x + (i : Int), r.y + (j : Int))))) ∧
    (∀ v : Nat, Wire.wPix v ∈ getInstanceData fd →
      ∃ r ∈ fd.vnc_dirty_rectangles, ∃ p : Int × Int, coversPt r p ∧ v = authAt fd p) := by
  refine ⟨rfl, rfl, ?_, fun r => rfl, ?_, ?_⟩
  · intro r
    unfold serializeRect
    rw [List.length_append, List.length_map, rectPoints_length]
    rfl
  · intro r i j hi hj
    unfold serializeRect
    rw [List.getElem?_append_right (by simp)]
    simp only [List.length_cons, List.length_nil]
    rw [show 4 + (j * r.w.toNat + i) - (0 + 1 + 1 + 1 + 1) = j * r.w.toNat + i by omega]
    rw [List.getElem?_map, rectPoints_get r i j hi hj]
    rfl
  · intro v hv
    unfold getInstanceData at hv
    rcases List.mem_append.mp hv with hhd | htl
    · simp at hhd
    · obtain ⟨l, hl, hmem⟩ := List.mem_flatten.mp htl
      obtain ⟨r, hr, rfl⟩ := List.mem_map.mp hl
      unfold serializeRect at hmem
      rcases List.mem_append.mp hmem with hb | hpix
      · simp at hb
      · obtain ⟨p, hp, heq⟩ := List.mem_map.mp hpix
        refine ⟨r, hr, p, (mem_rectPoints r p).mp hp, ?_⟩
        injection heq with h2
        exact h2.symm

/-- Witness for C4 at the spec's example rectangle `{x:10, y:20, w:5, h:5}`
on a 100×100 buffer: the block holds exactly 25 pixels and pixel run
position `2 * 5 + 3` reads the buffer at `(10 + 3, 20 + 2)`. -/
theorem C4_serialize_stream_witness :
    (3 : Nat) < (5 : Int).toNat ∧ (2 : Nat) < (5 : Int).toNat ∧
    (serializeRect ⟨100, 100, List.replicate 6 0, List.replicate 10000 7, [⟨10, 20, 5, 5⟩]⟩
        ⟨10, 20, 5, 5⟩).length = 4 + 5 * 5 ∧
    (serializeRect ⟨100, 100, List.replicate 6 0, List.replicate 10000 7, [⟨10, 20, 5, 5⟩]⟩
        ⟨10, 20, 5, 5⟩)[4 + (2 * 5 + 3)]? =
      some (Wire.wPix (authAt
        ⟨100, 100, List.replicate 6 0, List.replicate 10000 7, [⟨10, 20, 5, 5⟩]⟩
        (10 + (3 : Int), 20 + (2 : Int)))) :=
  ⟨by decide, by decide,
   (C4_serialize_stream
     ⟨100, 100, List.replicate 6 0, List.replicate 10000 7, [⟨10, 20, 5, 5⟩]⟩).2.2.1 ⟨10, 20, 5, 5⟩,
   (C4_serialize_stream
     ⟨100, 100, List.replicate 6 0, List.replicate 10000 7, [⟨10, 20, 5, 5⟩]⟩).2.2.2.2.1
     ⟨10, 20, 5, 5⟩ 3 2 (by decide) (by decide)⟩

/- ### C6: pointer mapping -/

/-- C6: the pointer mapper equals the five-step composition — channel
normalization, viewport mapping with vertical flip, canvas-rectangle
normalization, desktop scaling, truncation — followed by the clamp
`min (max · 0) (desktopDim - 1)`; for desktop dimensions at least 1 the
result always lies in `[0, dim-1]`, and a truncated coordinate already in
that range passes through unchanged. -/
theorem C6_pointer_mapping (ex ey pvpW pvpH vpX vpY vpW vpH c2 c3 c4 c5 : ℚ)
    (vncW vncH : Int) (hW : 1 ≤ vncW) (hH : 1 ≤ vncH) :
    eqptr_to_rfbptr ex ey pvpW pvpH vpX vpY vpW vpH c2 c3 c4 c5 vncW vncH =
      (min (max (truncQ (pointerRawX ex pvpW vpX vpW c2 c4 vncW)) 0) (vncW - 1),
       min (max (truncQ (pointerRawY ey pvpH vpY vpH c3 c5 vncH)) 0) (vncH - 1)) ∧
    (0 ≤ (eqptr_to_rfbptr ex ey pvpW pvpH vpX vpY vpW vpH c2 c3 c4 c5 vncW vncH).1 ∧
     (eqptr_to_rfbptr ex ey pvpW pvpH vpX vpY vpW vpH c2 c3 c4 c5 vncW vncH).1 ≤ vncW - 1 ∧
     0 ≤ (eqptr_to_rfbptr ex ey pvpW pvpH vpX vpY vpW vpH c2 c3 c4 c5 vncW vncH).2 ∧
     (eqptr_to_rfbptr ex ey pvpW pvpH vpX vpY vpW vpH c2 c3 c4 c5 vncW vncH).2 ≤ vncH - 1) ∧
    (0 ≤ truncQ (pointerRawX ex pvpW vpX vpW c2 c4 vncW) →
      truncQ (pointerRawX ex pvpW vpX vpW c2 c4 vncW) ≤ vncW - 1 →
      (eqptr_to_rfbptr ex ey pvpW pvpH vpX vpY vpW vpH c2 c3 c4 c5 vncW vncH).1 =
        truncQ (pointerRawX ex pvpW vpX vpW c2 c4 vncW)) ∧
    (0 ≤ truncQ (pointerRawY ey pvpH vpY vpH c3 c5 vncH) →
      truncQ (pointerRawY ey pvpH vpY vpH c3 c5 vncH) ≤ vncH - 1 →
      (eqptr_to_rfbptr ex ey pvpW pvpH vpX vpY vpW vpH c2 c3 c4 c5 vncW vncH).2 =
        truncQ (pointerRawY ey pvpH vpY vpH c3 c5 vncH)) := by
  have hminmax : ∀ (v W : Int),
      (if (if v < 0 then 0 else v) > W - 1 then W - 1 else if v < 0 then 0 else v) =
        min (max v 0) (W - 1) := by
    intro v W
    split_ifs <;> omega
  have heq : eqptr_to_rfbptr ex ey pvpW pvpH vpX vpY vpW vpH c2 c3 c4 c5 vncW vncH =
      (min (max (truncQ (pointerRawX ex pvpW vpX vpW c2 c4 vncW)) 0) (vncW - 1),
       min (max (truncQ (pointerRawY ey pvpH vpY vpH c3 c5 vncH)) 0) (vncH - 1)) := by
    simp only [eqptr_to_rfbptr, pointerRawX, pointerRawY]
    rw [Prod.mk.injEq]
    exact ⟨hminmax _ _, hminmax _ _⟩
  refine ⟨heq, ⟨?_, ?_, ?_, ?_⟩, ?_, ?_⟩
  · rw [heq]; simp only; omega
  · rw [heq]; simp only; omega
  · rw [heq]; simp only; omega
  · rw [heq]; simp only; omega
  · intro h1 h2; rw [heq]; simp only; omega
  · intro h1 h2; rw [heq]; simp only; omega

/-- Witness for C6: an event at (50, 50) in a 100×100 channel with the full
viewport and a full canvas rectangle maps to (400, 300) on an 800×600
desktop. -/
theorem C6_pointer_mapping_witness :
    (1 : Int) ≤ 800 ∧
    eqptr_to_rfbptr 50 50 100 100 0 0 1 1 0 0 1 1 800 600 =
      (min (max (truncQ (pointerRawX 50 100 0 1 0 1 800)) 0) (800 - 1),
       min (max (truncQ (pointerRawY 50 100 0 1 0 1 600)) 0) (600 - 1)) :=
  ⟨by norm_num,
   (C6_pointer_mapping 50 50 100 100 0 0 1 1 0 0 1 1 800 600
     (by norm_num) (by norm_num)).1⟩

/- ### C9: cylinder geometry -/

/-- The transform calls the cylinder branch issues: a fixed 90° rotation
about (0,1,0), then the up-alignment rotation, then the translation to the
cylinder center. -/
theorem frameDrawCylinder_transforms (sqrtQ acosQ tanQ cosQ sinQ : ℚ → ℚ) (pi : ℚ)
    (center up : Vec3) (radius phi_center phi_range theta_range : ℚ) :
    transformCmds (frameDrawCylinder sqrtQ acosQ tanQ cosQ sinQ pi center up radius
        phi_center phi_range theta_range) =
      [GLCmd.rotate 90 0 1 0,
       GLCmd.rotate (rad_to_deg pi (acosQ (dot3 ⟨0, 1, 0⟩ up /
           sqrtQ (dot3 ⟨0, 1, 0⟩ ⟨0, 1, 0⟩ * dot3 up up))))
         (cross3 ⟨0, 1, 0⟩ up).x (cross3 ⟨0, 1, 0⟩ up).y (cross3 ⟨0, 1, 0⟩ up).z,
       GLCmd.translate center.x center.y center.z] := by
  unfold transformCmds
  simp only [frameDrawCylinder]
  rw [List.filter_append, List.filter_append]
  have hstrip : ((List.range 1001).map (cylColumn tanQ cosQ sinQ radius phi_center
      phi_range theta_range)).flatten.filter isTransform = [] := by
    rw [List.filter_eq_nil_iff]
    intro c hc
    obtain ⟨l, hl, hcl⟩ := List.mem_flatten.mp hc
    obtain ⟨xx, _, rfl⟩ := List.mem_map.mp hl
    simp only [cylColumn, List.mem_cons, List.not_mem_nil, or_false] at hcl
    rcases hcl with rfl | rfl | rfl | rfl <;> simp [isTransform]
  rw [hstrip]
  rfl

/-- Counterexample to C9 as stated: the cylinder branch issues three
transform calls, not only the up-alignment rotation followed by the
translation — an extra `glRotatef(90, 0, 1, 0)` comes first. -/
theorem C9_extra_rotation_counterexample :
    (transformCmds (frameDrawCylinder id id id id id 3 ⟨0, 0, 0⟩ ⟨0, 0, 1⟩
        1 0 1 1)).length ≠ 2 ∧
    (transformCmds (frameDrawCylinder id id id id id 3 ⟨0, 0, 0⟩ ⟨0, 0, 1⟩
        1 0 1 1))[0]? = some (GLCmd.rotate 90 0 1 0) := by
  rw [frameDrawCylinder_transforms]
  exact ⟨by decide, rfl⟩

/-- C9 (amended): the mesh formulas are as claimed — half-height
`r·tan(Δθ/2)`, azimuth `φ0 + (t - 1/2)·Δφ` at segment fraction `t = x/1000`,
vertices `(r·cos φ, ±h, r·sin φ)` with texture coordinates `(t, 0)` and
`(t, 1)`, for 1001 strip columns — but the transforms applied are a fixed
90° rotation about (0,1,0) followed by the rotation taking (0,1,0) onto the
up vector (axis `cross((0,1,0), U)`, angle
`acos(dot((0,1,0),U)/√(|(0,1,0)|²·|U|²))`) and the translation by the
center, in GL call order. -/
theorem C9_cylinder_mesh (sqrtQ acosQ tanQ cosQ sinQ : ℚ → ℚ) (pi : ℚ)
    (center up : Vec3) (radius phi_center phi_range theta_range : ℚ) :
    transformCmds (frameDrawCylinder sqrtQ acosQ tanQ cosQ sinQ pi center up radius
        phi_center phi_range theta_range) =
      [GLCmd.rotate 90 0 1 0,
       GLCmd.rotate (rad_to_deg pi (acosQ (dot3 ⟨0, 1, 0⟩ up /
           sqrtQ (dot3 ⟨0, 1, 0⟩ ⟨0, 1, 0⟩ * dot3 up up))))
         (cross3 ⟨0, 1, 0⟩ up).x (cross3 ⟨0, 1, 0⟩ up).y (cross3 ⟨0, 1, 0⟩ up).z,
       GLCmd.translate center.x center.y center.z] ∧
    (frameDrawCylinder sqrtQ acosQ tanQ cosQ sinQ pi center up radius
        phi_center phi_range theta_range)[3]? = some GLCmd.beginStrip ∧
    (frameDrawCylinder sqrtQ acosQ tanQ cosQ sinQ pi center up radius
        phi_center phi_range theta_range).length = 4009 ∧
    ∀ x : Fin 1001,
      ((frameDrawCylinder sqrtQ acosQ tanQ cosQ sinQ pi center up radius
          phi_center phi_range theta_range)[4 + ((x : Nat) * 4 + 0)]? =
        some (GLCmd.texCoord (((x : Nat) : ℚ) / 1000) 0)) ∧
      ((frameDrawCylinder sqrtQ acosQ tanQ cosQ sinQ pi center up radius
          phi_center phi_range theta_range)[4 + ((x : Nat) * 4 + 1)]? =
        some (GLCmd.vertex
          (radius * cosQ (phi_center + ((((x : Nat) : ℚ) / 1000) - 1 / 2) * phi_range))
          (radius * tanQ (theta_range / 2))
          (radius * sinQ (phi_center + ((((x : Nat) : ℚ) / 1000) - 1 / 2) * phi_range)))) ∧
      ((frameDrawCylinder sqrtQ acosQ tanQ cosQ sinQ pi center up radius
          phi_center phi_range theta_range)[4 + ((x : Nat) * 4 + 2)]? =
        some (GLCmd.texCoord (((x : Nat) : ℚ) / 1000) 1)) ∧
      ((frameDrawCylinder sqrtQ acosQ tanQ cosQ sinQ pi center up radius
          phi_center phi_range theta_range)[4 + ((x : Nat) * 4 + 3)]? =
        some (GLCmd.vertex
          (radius * cosQ (phi_center + ((((x : Nat) : ℚ) / 1000) - 1 / 2) * phi_range))
          (-(radius * tanQ (theta_range / 2)))
          (radius * sinQ (phi_center + ((((x : Nat) : ℚ) / 1000) - 1 / 2) * phi_range)))) := by
  have hB : ∀ j, (cylColumn tanQ cosQ sinQ radius phi_center phi_range theta_range j).length = 4 :=
    fun j => rfl
  have hlen : ((List.range 1001).map (cylColumn tanQ cosQ sinQ radius phi_center
      phi_range theta_range)).flatten.length = 1001 * 4 :=
    flatten_blocks_length _ 4 hB 1001
  have hget : ∀ x : Fin 1001, ∀ i : Nat, i < 4 →
      (frameDrawCylinder sqrtQ acosQ tanQ cosQ sinQ pi center up radius phi_center
        phi_range theta_range)[4 + ((x : Nat) * 4 + i)]? =
      (cylColumn tanQ cosQ sinQ radius phi_center phi_range theta_range (x : Nat))[i]? := by
    intro x i hi
    have hx := x.isLt
    simp only [frameDrawCylinder, List.cons_append, List.nil_append]
    rw [show 4 + ((x : Nat) * 4 + i) = (x : Nat) * 4 + i + 1 + 1 + 1 + 1 from by omega]
    rw [List.getElem?_cons_succ, List.getElem?_cons_succ, List.getElem?_cons_succ,
      List.getElem?_cons_succ]
    rw [List.getElem?_append_left (by rw [hlen]; omega)]
    exact flatten_blocks_get _ 4 hB 1001 (x : Nat) i hx hi
  refine ⟨frameDrawCylinder_transforms sqrtQ acosQ tanQ cosQ sinQ pi center up radius
      phi_center phi_range theta_range, ?_, ?_, ?_⟩
  · simp only [frameDrawCylinder, List.cons_append, List.nil_append]
    rw [show (3 : Nat) = 0 + 1 + 1 + 1 from rfl, List.getElem?_cons_succ,
      List.getElem?_cons_succ, List.getElem?_cons_succ, List.getElem?_cons_zero]
  · simp only [frameDrawCylinder, List.length_append, hlen]
    rfl
  · intro x
    refine ⟨?_, ?_, ?_, ?_⟩
    · rw [hget x 0 (by omega)]; rfl
    · rw [hget x 1 (by omega)]; rfl
    · rw [hget x 2 (by omega)]; rfl
    · rw [hget x 3 (by omega)]; rfl
